import Mathlib

/-!
Verification of the story-HUD Windows agent (`src/main.py`) against its
natural-language specification.

Shallow embedding conventions:
* Python `int`s are `ℤ` (or `ℕ` where the source guarantees non-negativity),
  Python `float`s are modelled as exact rationals `ℚ` (the source only adds,
  multiplies and divides small quantities, so binary64 rounding is not the
  subject of any claim), `bytes` are `List ℕ` with every entry < 256.
* `int(x)` (truncation toward zero) is `pyInt`.
* Python strings are Lean `String`s; the library helpers `str.strip`,
  `str.rstrip` and `str.splitlines` are re-implemented structurally
  (`pyStrip`, `pyRstrip`, `pySplitlines`) so that concrete evaluation is
  kernel-reducible.  Stories in this program are joined with `"\n"`, so
  `splitlines` is modelled as splitting on `'\n'`.
* Fallible Python code (a `raise`) is `Option`/sum results: `none` models an
  exception escaping the modelled fragment.
* OS calls (GDI drawing, `SendInput`, `time.time`) are modelled by explicit
  state or by input sequences: the overlay keeps a symbolic backing buffer
  and a symbolic "last frame pushed to the compositor"; the settle loop
  consumes a list of (elapsed-time, sample) observations; input synthesis
  returns the list of events that would be handed to `SendInput`.
-/

/-- Python `int(q)` on a real value: truncation toward zero. -/
def pyInt (q : ℚ) : ℤ := if 0 ≤ q then ⌊q⌋ else -⌊-q⌋

/-- Whitespace test used by `str.strip`/`str.rstrip` (ASCII fragment;
Python also strips some unicode spaces, which never occur here). -/
def pySpace (c : Char) : Bool := c.isWhitespace

/-- Python `str.rstrip()` : drop trailing whitespace. -/
def pyRstrip (s : String) : String :=
  String.mk (((s.toList.reverse).dropWhile pySpace).reverse)

/-- Python `str.lstrip()` : drop leading whitespace. -/
def pyLstrip (s : String) : String :=
  String.mk (s.toList.dropWhile pySpace)

/-- Python `str.strip()` : drop leading and trailing whitespace. -/
def pyStrip (s : String) : String := pyRstrip (pyLstrip s)

/-- Split a character list at every occurrence of `sep` (Python
`str.split(sep)` for a single-character separator). -/
def splitCharList (sep : Char) : List Char → List (List Char)
  | [] => [[]]
  | c :: rest =>
    match splitCharList sep rest, decide (c = sep) with
    | r, true => [] :: r
    | [], false => [[c]]
    | h :: t, false => (c :: h) :: t

/-- Python `str.splitlines()` for newline-separated text (the program joins
stories with `"\n"`; Python would additionally split at `\r` and friends,
which do not occur in the merged stories). `"".splitlines() == []`. -/
def pySplitlines (s : String) : List String :=
  if s = "" then [] else (splitCharList '\n' s.toList).map String.mk

-- =========================
-- INPUT HELPERS (CoordConverter, scroll)
-- =========================

/-- `CoordConverter` from `src/main.py`: screen size `sw × sh` and model
(downsample target) size `mw × mh`. -/
structure CoordConverter where
  sw : ℤ
  sh : ℤ
  mw : ℤ
  mh : ℤ

/-- `CoordConverter.norm_to_screen`: `int(xn * sw / 1000), int(yn * sh / 1000)`. -/
def CoordConverter.norm_to_screen (c : CoordConverter) (xn yn : ℚ) : ℤ × ℤ :=
  (pyInt (xn * (c.sw : ℚ) / 1000), pyInt (yn * (c.sh : ℚ) / 1000))

/-- `CoordConverter.to_win32_normalized`: device-absolute conversion with
clamping to [0, 65535]; degenerate screens short-circuit to 0. -/
def CoordConverter.to_win32_normalized (c : CoordConverter) (x y : ℤ) : ℤ × ℤ :=
  if c.sw ≤ 0 ∨ c.sh ≤ 0 then (0, 0)
  else
    (if 1 < c.sw then max 0 (min 65535 (pyInt ((x : ℚ) * 65535 / ((c.sw : ℚ) - 1)))) else 0,
     if 1 < c.sh then max 0 (min 65535 (pyInt ((y : ℚ) * 65535 / ((c.sh : ℚ) - 1)))) else 0)

/-- Composition used by the executor: normalized oracle coordinates to
device-absolute input coordinates. -/
def normToDevice (c : CoordConverter) (xn yn : ℚ) : ℤ × ℤ :=
  let p := c.norm_to_screen xn yn
  c.to_win32_normalized p.1 p.2

/-- Axis of a synthetic wheel event (`MOUSEEVENTF_WHEEL` vs `HWHEEL`). -/
inductive WheelAxis where
  | vertical
  | horizontal
deriving DecidableEq, Repr

/-- WHEEL_DELTA from the source. -/
def WHEEL_DELTA : ℤ := 120

/-- One axis of `scroll` from `src/main.py`:
`ticks = max(1, abs(int(delta)) // 100)`, `direction = 1 if delta > 0 else -1`,
then `ticks` events with `mouseData = WHEEL_DELTA * direction`. -/
def scrollAxis (delta : ℚ) (ax : WheelAxis) : List (WheelAxis × ℤ) :=
  if delta ≠ 0 then
    let ticks : ℕ := max 1 ((pyInt delta).natAbs / 100)
    let direction : ℤ := if 0 < delta then 1 else -1
    List.replicate ticks (ax, WHEEL_DELTA * direction)
  else []

/-- `scroll(dx, dy)` from `src/main.py`: the batch of wheel events handed to
`SendInput` — vertical (from `dy`) first, then horizontal (from `dx`). -/
def scroll (dx dy : ℚ) : List (WheelAxis × ℤ) :=
  scrollAxis dy .vertical ++ scrollAxis dx .horizontal

-- =========================
-- MEMORY MERGER (_merge_story) and the run_agent story update
-- =========================

/-- Line normalisation used by `_merge_story`:
`[ln.rstrip() for ln in story.splitlines() if ln.strip()]`. -/
def storyLinesR (s : String) : List String :=
  (pySplitlines s).filterMap (fun ln => if pyStrip ln ≠ "" then some (pyRstrip ln) else none)

/-- Loop body of `_merge_story`: scan candidate lines, append unseen ones,
and `break` once `len(merged) >= max_lines` (checked after a possible
append, exactly as in the source). -/
def mergeLoop (maxLines : ℕ) : List String → List String → List String
  | [], merged => merged
  | ln :: rest, merged =>
    let merged' := if ln ∈ merged then merged else merged ++ [ln]
    if maxLines ≤ merged'.length then merged' else mergeLoop maxLines rest merged'

/-- Join lines with `"\n"` (Python `"\n".join`). -/
def joinLines : List String → String
  | [] => ""
  | [l] => l
  | l :: rest => l ++ "\n" ++ joinLines rest

/-- Merged line list produced by `_merge_story` before joining
(new lines first, then old lines). -/
def mergedLines (old_story new_story : String) (max_lines : ℕ) : List String :=
  mergeLoop max_lines (storyLinesR new_story ++ storyLinesR old_story) []

/-- `_merge_story(old_story, new_story, max_lines)` from `src/main.py`. -/
def merge_story (old_story new_story : String) (max_lines : ℕ) : String :=
  if new_story = "" ∧ old_story ≠ "" then old_story
  else joinLines (mergedLines old_story new_story max_lines)

/-- Non-blank line count used by `run_agent`:
`len([ln for ln in new_story.splitlines() if ln.strip()])`. -/
def lineCount (s : String) : ℕ :=
  ((pySplitlines s).filter (fun ln => pyStrip ln ≠ "")).length

/-- Story update performed by `run_agent` (src/main.py lines 1003–1010) once
the normalized new story is available: empty new story keeps the old story;
fewer than 6 non-blank lines merges old and new; otherwise the new story is
merged against an empty old side. -/
def updateStory (story new_story : String) : String :=
  if new_story ≠ "" then
    if lineCount new_story < 6 then merge_story story new_story 16
    else merge_story "" new_story 16
  else story

-- =========================
-- Reference definitions written from the specification's words (for the
-- refinement claims C6): scan new-lines-first then old-lines, append unseen
-- lines while fewer than maxLines have been appended.
-- =========================

/-- Reference scan from the spec: append each unseen line, stopping once
`maxLines` lines have been appended (checked before an append). -/
def refScan (maxLines : ℕ) : List String → List String → List String
  | [], acc => acc
  | ln :: rest, acc =>
    if maxLines ≤ acc.length then acc
    else refScan maxLines rest (if ln ∈ acc then acc else acc ++ [ln])

/-- Fully-trimmed non-empty lines — the spec says the stories are "split into
trimmed non-empty lines". -/
def storyLinesT (s : String) : List String :=
  (pySplitlines s).filterMap (fun ln => if pyStrip ln ≠ "" then some (pyStrip ln) else none)

/-- Reference merge, exactly as the claim words it: empty new story keeps the
old story; otherwise scan fully-trimmed new lines then old lines. -/
def refMerge (old_story new_story : String) (max_lines : ℕ) : String :=
  if new_story = "" then old_story
  else joinLines (refScan max_lines (storyLinesT new_story ++ storyLinesT old_story) [])

/-- Variant of the reference scan over right-trimmed lines (what the code
actually uses); used by the amended claim C6. -/
def refMergeR (old_story new_story : String) (max_lines : ℕ) : String :=
  if new_story = "" then old_story
  else joinLines (refScan max_lines (storyLinesR new_story ++ storyLinesR old_story) [])

-- =========================
-- CONTROL LOOP: consecutive parse-failure accounting (run_agent lines 985–991)
-- =========================

/-- Outcome of the parse-failure accounting abstraction of `run_agent`. -/
inductive AgentResult where
  | fatalParse
  | ranOut
deriving DecidableEq, Repr

/-- Abstraction of `run_agent`'s main loop over the sequence of per-iteration
parse outcomes (`true` = the oracle response parsed, `false` = `parse_response`
returned `None`).  On a failure the counter is incremented and the run raises
`RuntimeError` when it reaches 3; on a success the counter resets to 0.
`ranOut` marks the end of the (finite) modelled outcome sequence. -/
def parseLoop : List Bool → ℕ → AgentResult
  | [], _ => .ranOut
  | ok :: rest, failed =>
    if ok then parseLoop rest 0
    else if 3 ≤ failed + 1 then .fatalParse
    else parseLoop rest (failed + 1)

-- =========================
-- OVERLAY MANAGER (render / reassert_topmost)
-- =========================

/-- Symbolic contents of a full-screen BGRA surface: either all-zero
(fully transparent) or the background panel + outlined text drawn for a
given story. -/
inductive BufContent where
  | transparent
  | drawn (story : String)
deriving DecidableEq, Repr

/-- Abstract state of `OverlayManager`: the story, the backing DIB buffer,
the frame last pushed to the OS compositor via `UpdateLayeredWindow`, and
the cumulative number of topmost `SetWindowPos` pulses issued. -/
structure OvState where
  story : String
  buffer : BufContent
  onScreen : BufContent
  pulses : ℕ
deriving DecidableEq, Repr

/-- OVERLAY_REASSERT_PULSES from the source. -/
def OVERLAY_REASSERT_PULSES : ℕ := 2

/-- `OverlayManager.reassert_topmost`: issues `OVERLAY_REASSERT_PULSES`
topmost `SetWindowPos` pulses. -/
def reassert_topmost (st : OvState) : OvState :=
  { st with pulses := st.pulses + OVERLAY_REASSERT_PULSES }

/-- `OverlayManager.set_story`. -/
def set_story (st : OvState) (s : String) : OvState := { st with story := s }

/-- `OverlayManager.render` (src/main.py lines 614–672): clear the backing
buffer (`memset` to 0); with an empty story, reassert topmost and return —
note that `UpdateLayeredWindow` is *not* called on this path; otherwise draw
the panel and outlined text into the buffer, push the buffer to the
compositor, and reassert topmost. -/
def render (st : OvState) : OvState :=
  let st1 : OvState := { st with buffer := .transparent }
  if st1.story = "" then reassert_topmost st1
  else
    let st2 : OvState := { st1 with buffer := .drawn st1.story }
    let st3 : OvState := { st2 with onScreen := st2.buffer }
    reassert_topmost st3

-- =========================
-- SCREEN STABILITY (wait_for_screen_settle)
-- =========================

/-- SETTLE_ENABLED from the source. -/
def SETTLE_ENABLED : Bool := true

/-- SETTLE_MAX_S from the source (2.5 s). -/
def SETTLE_MAX_S : ℚ := 5/2

/-- SETTLE_REQUIRED_STABLE from the source. -/
def SETTLE_REQUIRED_STABLE : ℕ := 2

/-- SETTLE_CHANGE_RATIO_THRESHOLD from the source (0.006; the decimal value
stands in for the binary64 literal). -/
def SETTLE_CHANGE_RATIO_THRESHOLD : ℚ := 6/1000

/-- Changed-byte ratio between the previous and current downsampled sample:
`sum(1 for a, b in zip(prev, curr) if a != b) / len(curr)`.  (The source
would raise `ZeroDivisionError` on an empty sample; samples are 256·144·4
bytes, so this is unreachable — Lean's `q / 0 = 0` stands in.) -/
def changedRatio (prev curr : List ℕ) : ℚ :=
  (((List.zip prev curr).filter (fun ab => ab.1 ≠ ab.2)).length : ℚ) / (curr.length : ℚ)

/-- Result of the settle loop. -/
inductive SettleOutcome where
  | settled
  | timedOut
  | ranOut
deriving DecidableEq, Repr

/-- Loop of `wait_for_screen_settle` (src/main.py lines 500–518) over a list
of observations, each an (elapsed wall-clock time at the `while` guard,
downsampled cursor-free sample) pair.  `timedOut` models the guard failing
(the function returns normally), `settled` models the early `return` once the
stable streak reaches `SETTLE_REQUIRED_STABLE`, and `ranOut` marks the end of
the (finite) modelled observation sequence. -/
def settleLoop : List (ℚ × List ℕ) → ℕ → Option (List ℕ) → SettleOutcome
  | [], _, _ => .ranOut
  | (t, s) :: rest, stable_count, prev =>
    if SETTLE_MAX_S ≤ t then .timedOut
    else
      match prev with
      | none => settleLoop rest stable_count (some s)
      | some p =>
        if changedRatio p s < SETTLE_CHANGE_RATIO_THRESHOLD then
          if SETTLE_REQUIRED_STABLE ≤ stable_count + 1 then .settled
          else settleLoop rest (stable_count + 1) (some s)
        else settleLoop rest 0 (some s)

/-- `wait_for_screen_settle` (SETTLE_ENABLED is `True` in the source, so the
early-exit on a disabled setting is not taken). -/
def wait_for_screen_settle (obs : List (ℚ × List ℕ)) : SettleOutcome :=
  settleLoop obs 0 none

-- =========================
-- ACTION COMMAND (from_dict / validate) and decision payloads
-- =========================

/-- Decoded JSON value, as produced by `json.loads` (JSON numbers are exact
rationals here; `null` decodes to Python `None`). -/
inductive JVal where
  | null
  | bool (b : Bool)
  | num (q : ℚ)
  | str (s : String)
  | arr (l : List JVal)
  | obj (l : List (String × JVal))

/-- Dictionary lookup `d.get(k)` (decision payloads have distinct keys). -/
def pyGet (d : List (String × JVal)) (k : String) : Option JVal :=
  (d.find? (fun kv => kv.1 = k)).map (fun kv => kv.2)

/-- Python truthiness of a decoded JSON value (`bool(v)`). -/
def pyTruthy : JVal → Bool
  | .null => false
  | .bool b => b
  | .num q => q ≠ 0
  | .str s => s ≠ ""
  | .arr l => ¬ l.isEmpty
  | .obj l => ¬ l.isEmpty

/-- Digit-string to number (helper for the `float()` literal model). -/
def digitsToNat (cs : List Char) : ℕ :=
  cs.foldl (fun n c => n * 10 + (c.toNat - 48)) 0

/-- Mantissa of a Python float literal: optional sign, then digits with an
optional decimal point (at least one digit overall). -/
def parseMantissa (cs : List Char) : Option ℚ :=
  let signed : Bool × List Char :=
    match cs with
    | '-' :: rest => (true, rest)
    | '+' :: rest => (false, rest)
    | rest => (false, rest)
  let body := signed.2
  let sgn : ℚ := if signed.1 then -1 else 1
  match splitCharList '.' body with
  | [ip] =>
    if ip ≠ [] ∧ ip.all Char.isDigit then some (sgn * (digitsToNat ip : ℚ)) else none
  | [ip, fp] =>
    if (ip ≠ [] ∨ fp ≠ []) ∧ ip.all Char.isDigit ∧ fp.all Char.isDigit then
      some (sgn * ((digitsToNat ip : ℚ) + (digitsToNat fp : ℚ) / (10 : ℚ) ^ fp.length))
    else none
  | _ => none

/-- Signed integer exponent of a float literal. -/
def parseExponent (cs : List Char) : Option ℤ :=
  let signed : Bool × List Char :=
    match cs with
    | '-' :: rest => (true, rest)
    | '+' :: rest => (false, rest)
    | rest => (false, rest)
  if signed.2 ≠ [] ∧ signed.2.all Char.isDigit then
    some ((if signed.1 then -1 else 1) * (digitsToNat signed.2 : ℤ))
  else none

/-- Python `float(s)` on a string: parse a finite decimal literal
(whitespace-tolerant, case-insensitive exponent).  `inf`/`nan` literals and
digit underscores are not representable here and yield `none`; the program
never passes them.  `none` models the `ValueError`. -/
def pyFloatOfString (s : String) : Option ℚ :=
  let cs := (pyStrip s).toList.map Char.toLower
  match splitCharList 'e' cs with
  | [m] => parseMantissa m
  | [m, ex] =>
    match parseMantissa m, parseExponent ex with
    | some q, some e => some (q * (10 : ℚ) ^ e)
    | _, _ => none
  | _ => none

/-- Python `float(v)` on a decoded JSON value; `none` models the
`TypeError`/`ValueError` raised on `None`, lists, dicts and non-numeric
strings. -/
def pyFloatOfJVal : JVal → Option ℚ
  | .num q => some q
  | .bool b => some (if b then 1 else 0)
  | .str s => pyFloatOfString s
  | _ => none

/-- The `num` lambda from `ActionCommand.from_dict`:
`float(v[0]) if isinstance(v, list) and v else float(v) if v is not None and v != "" else None`.
Outer `none` models an escaping exception; `some none` is Python `None`. -/
def pyNum : Option JVal → Option (Option ℚ)
  | none => some none
  | some v =>
    match v with
    | .null => some none
    | .arr (a :: _) => (pyFloatOfJVal a).map some
    | .arr [] => none
    | .str "" => some none
    | v' => (pyFloatOfJVal v').map some

/-- Python `str(v)` on a decoded JSON value (numeric rendering approximated;
no claim depends on it). -/
def pyStrOfJVal : JVal → String
  | .str s => s
  | .bool b => if b then "True" else "False"
  | .null => "None"
  | .num q => toString q
  | .arr _ => "[...]"
  | .obj _ => "[...]"

/-- The seven recognised tool tags. -/
def sevenTools : List String :=
  ["click", "move", "drag", "type", "scroll", "done", "analyze"]

/-- Tool coercion in `from_dict`: `d.get("tool", "")`, then any value outside
the seven-variant set (including non-strings) is replaced by `"done"`. -/
def coerceTool (v : JVal) : String :=
  match v with
  | .str s => if s ∈ sevenTools then s else "done"
  | _ => "done"

/-- `ActionCommand` from `src/main.py` (the `memory` field may be any decoded
value). -/
structure ActionCommand where
  tool : String
  reasoning : String := ""
  memory : Option JVal := none
  x : Option ℚ := none
  y : Option ℚ := none
  text : String := ""
  dx : ℚ := 0
  dy : ℚ := 0
  x1 : Option ℚ := none
  y1 : Option ℚ := none
  x2 : Option ℚ := none
  y2 : Option ℚ := none

/-- String normalisation `str(d.get(k, "") or "")` used for `reasoning` and
`text`. -/
def strOrEmpty (d : List (String × JVal)) (k : String) : String :=
  match pyGet d k with
  | none => ""
  | some v => if pyTruthy v then pyStrOfJVal v else ""

/-- `ActionCommand.from_dict` (src/main.py lines 692–711).  `none` models a
`float()` conversion exception escaping `from_dict` (the order in which the
eight `num(...)` calls raise does not affect the modelled outcome). -/
def from_dict (d : List (String × JVal)) : Option ActionCommand :=
  match pyNum (pyGet d "x"), pyNum (pyGet d "y"),
        pyNum (pyGet d "dx"), pyNum (pyGet d "dy"),
        pyNum (pyGet d "x1"), pyNum (pyGet d "y1"),
        pyNum (pyGet d "x2"), pyNum (pyGet d "y2") with
  | some x, some y, some dx, some dy, some x1, some y1, some x2, some y2 =>
    some
      { tool := coerceTool ((pyGet d "tool").getD (.str ""))
        reasoning := pyStrip (strOrEmpty d "reasoning")
        memory := pyGet d "memory"
        x := x, y := y
        text := strOrEmpty d "text"
        dx := dx.getD 0, dy := dy.getD 0
        x1 := x1, y1 := y1, x2 := x2, y2 := y2 }
  | _, _, _, _, _, _, _, _ => none

/-- `ActionCommand.validate` (src/main.py lines 713–726). -/
def validate (c : ActionCommand) : Bool :=
  if c.tool = "click" ∨ c.tool = "move" then
    match c.x, c.y with
    | some x, some y => decide (0 ≤ x ∧ x ≤ 1000 ∧ 0 ≤ y ∧ y ≤ 1000)
    | _, _ => false
  else if c.tool = "drag" then
    match c.x1, c.y1, c.x2, c.y2 with
    | some a, some b, some a2, some b2 =>
      decide (0 ≤ a ∧ a ≤ 1000 ∧ 0 ≤ b ∧ b ≤ 1000 ∧
              0 ≤ a2 ∧ a2 ≤ 1000 ∧ 0 ≤ b2 ∧ b2 ≤ 1000)
    | _, _, _, _ => false
  else if c.tool = "scroll" then decide (|c.dx| ≤ 10000 ∧ |c.dy| ≤ 10000)
  else if c.tool = "type" then decide (c.text.length ≤ 2000)
  else if c.tool = "analyze" ∨ c.tool = "done" then true
  else false

/-- What `run_agent` does with a parsed command (lines 994 and 1015–1018):
an invalid command silently skips the iteration; `"done"` breaks the loop
after the overlay update, before `ActionExecutor.execute` is reached; any
other command is executed. -/
inductive StepResult where
  | skippedValidation
  | terminateRun
  | acted (tool : String)
deriving DecidableEq, Repr

/-- Dispatch of `run_agent` on a freshly parsed command. -/
def loopStep (c : ActionCommand) : StepResult :=
  if validate c = false then .skippedValidation
  else if c.tool = "done" then .terminateRun
  else .acted c.tool

-- =========================
-- PNG ENCODER (_encode_png_rgb)
-- =========================

/-- BGRA-to-RGB conversion loop of `_encode_png_rgb`: for each 4-byte pixel
`b,g,r,a` emit `r,g,b`.  (On a buffer whose length is not a multiple of 4 the
source would raise `IndexError`; frames are `w*h*4` bytes.) -/
def bgraToRgb : List ℕ → List ℕ
  | b :: g :: r :: _ :: rest => r :: g :: b :: bgraToRgb rest
  | _ => []

/-- Row slicing `rgb[i:i+row_len]` for `i in range(0, len(rgb), row_len)`,
with the list's length as structural fuel (each step consumes at least one
byte when `rowLen ≥ 1`; for `rowLen = 0` — i.e. `w = 0` — the source raises
`ValueError` from `range`, unreachable under the frame invariant). -/
def pyChunksAux (rowLen : ℕ) : ℕ → List ℕ → List (List ℕ)
  | 0, _ => []
  | n + 1, l => if l = [] then [] else l.take rowLen :: pyChunksAux rowLen n (l.drop rowLen)

/-- Rows of the RGB byte stream, `row_len` bytes each. -/
def pyChunks (rowLen : ℕ) (l : List ℕ) : List (List ℕ) :=
  pyChunksAux rowLen l.length l

/-- Filtered data of `_encode_png_rgb`: every scanline prefixed with the
filter byte `0x00`, concatenated. -/
def filteredData (rgb : List ℕ) (rowLen : ℕ) : List ℕ :=
  ((pyChunks rowLen rgb).map (fun row => 0 :: row)).flatten

/-- Big-endian 4-byte encoding (`struct.pack('>I', n)`; also `'>i'` for the
header fields, whose values fit in a signed 32-bit int). -/
def be32 (n : ℕ) : List ℕ :=
  [n / 16777216 % 256, n / 65536 % 256, n / 256 % 256, n % 256]

/-- Chunk type `b"IHDR"`. -/
def IHDRtype : List ℕ := [73, 72, 68, 82]

/-- Chunk type `b"IDAT"`. -/
def IDATtype : List ℕ := [73, 68, 65, 84]

/-- Chunk type `b"IEND"`. -/
def IENDtype : List ℕ := [73, 69, 78, 68]

/-- The fixed 8-byte PNG signature `b"\x89PNG\r\n\x1a\n"`. -/
def pngSignature : List ℕ := [137, 80, 78, 71, 13, 10, 26, 10]

/-- `_encode_png_rgb(data, w, h)` (src/main.py lines 462–495), parameterised
by the external library functions `zlib.compress` and `zlib.crc32` (both are
C-library calls outside this repository). -/
def encode_png_rgb (compress : List ℕ → List ℕ) (crc32 : List ℕ → ℕ)
    (data : List ℕ) (w h : ℕ) : List ℕ :=
  let rgb := bgraToRgb data
  let filtered := filteredData rgb (w * 3)
  let compressed := compress filtered
  let ihdr := be32 w ++ be32 h ++ [8, 2, 0, 0, 0]
  let ihdrChunk := be32 ihdr.length ++ IHDRtype ++ ihdr ++ be32 (crc32 (IHDRtype ++ ihdr))
  let idatChunk := be32 compressed.length ++ IDATtype ++ compressed ++ be32 (crc32 (IDATtype ++ compressed))
  let iendChunk := be32 0 ++ IENDtype ++ be32 (crc32 IENDtype)
  pngSignature ++ ihdrChunk ++ idatChunk ++ iendChunk

-- Specification-side description of the container (for the refinement
-- claim C8): chunk framing and an index-based description of the scanlines.

/-- Chunk framing as the spec words it: 4-byte big-endian payload length,
the 4-byte type, the payload, and a CRC32 computed over type ‖ payload. -/
def specChunk (crc32 : List ℕ → ℕ) (ty payload : List ℕ) : List ℕ :=
  be32 payload.length ++ ty ++ payload ++ be32 (crc32 (ty ++ payload))

/-- RGB bytes of pixel `(x, y)` of a `w`-wide BGRA frame, read directly from
the frame by index. -/
def pixelRGB (data : List ℕ) (w x y : ℕ) : List ℕ :=
  [data.getD ((y * w + x) * 4 + 2) 0,
   data.getD ((y * w + x) * 4 + 1) 0,
   data.getD ((y * w + x) * 4) 0]

/-- Scanline serialization as the spec words it: for each row, a `0x00`
no-filter byte followed by the row's RGB pixels, all rows concatenated. -/
def specScanlines (data : List ℕ) (w h : ℕ) : List ℕ :=
  ((List.range h).map
    (fun y => 0 :: (List.range w).flatMap (fun x => pixelRGB data w x y))).flatten

-- =========================
-- THEOREMS
-- =========================

-- Helper lemmas (shared; not tied to a single claim).

/-- Anything `mergeLoop` returns was already accumulated or is a scanned line. -/
theorem mergeLoop_mem (n : ℕ) :
    ∀ (l acc : List String) (x : String), x ∈ mergeLoop n l acc → x ∈ acc ∨ x ∈ l := by
  intro l
  induction l with
  | nil => intro acc x hx; exact Or.inl hx
  | cons ln rest ih =>
    intro acc x hx
    simp only [mergeLoop] at hx
    by_cases hmem : ln ∈ acc
    · simp only [if_pos hmem] at hx
      by_cases hlen : n ≤ acc.length
      · simp only [if_pos hlen] at hx
        exact Or.inl hx
      · simp only [if_neg hlen] at hx
        rcases ih acc x hx with h | h
        · exact Or.inl h
        · exact Or.inr (List.mem_cons_of_mem _ h)
    · simp only [if_neg hmem] at hx
      by_cases hlen : n ≤ (acc ++ [ln]).length
      · simp only [if_pos hlen] at hx
        rcases List.mem_append.mp hx with h | h
        · exact Or.inl h
        · exact Or.inr (by simpa using Or.inl (List.mem_singleton.mp h))
      · simp only [if_neg hlen] at hx
        rcases ih _ x hx with h | h
        · rcases List.mem_append.mp h with h2 | h2
          · exact Or.inl h2
          · exact Or.inr (by simpa using Or.inl (List.mem_singleton.mp h2))
        · exact Or.inr (List.mem_cons_of_mem _ h)

/-- Once the accumulator has reached `maxLines` lines, the reference scan is
inert. -/
theorem refScan_stop (n : ℕ) :
    ∀ (l acc : List String), n ≤ acc.length → refScan n l acc = acc := by
  intro l
  induction l with
  | nil => intro acc _; rfl
  | cons ln rest ih =>
    intro acc h
    simp only [refScan, if_pos h]

/-- With a not-yet-full accumulator the source loop and the reference scan
agree (the source checks the cap after an append, the reference before; the
two coincide from any state strictly below the cap). -/
theorem mergeLoop_eq_refScan (n : ℕ) :
    ∀ (l acc : List String), acc.length < n → mergeLoop n l acc = refScan n l acc := by
  intro l
  induction l with
  | nil => intro acc _; rfl
  | cons ln rest ih =>
    intro acc h
    have hnot : ¬ n ≤ acc.length := Nat.not_le.mpr h
    simp only [mergeLoop, refScan, if_neg hnot]
    by_cases hmem : ln ∈ acc
    · simp only [if_pos hmem]
      by_cases hlen : n ≤ acc.length
      · exact absurd hlen hnot
      · simp only [if_neg hlen]
        exact ih acc h
    · simp only [if_neg hmem]
      by_cases hlen : n ≤ (acc ++ [ln]).length
      · simp only [if_pos hlen]
        exact (refScan_stop n rest _ hlen).symm
      · simp only [if_neg hlen]
        exact ih _ (Nat.not_le.mp hlen)

/-- From a state strictly below the cap the source loop never exceeds the
cap. -/
theorem mergeLoop_length (n : ℕ) :
    ∀ (l acc : List String), acc.length < n → (mergeLoop n l acc).length ≤ n := by
  intro l
  induction l with
  | nil => intro acc h; exact Nat.le_of_lt h
  | cons ln rest ih =>
    intro acc h
    simp only [mergeLoop]
    by_cases hmem : ln ∈ acc
    · simp only [if_pos hmem]
      by_cases hlen : n ≤ acc.length
      · exact absurd hlen (Nat.not_le.mpr h)
      · simp only [if_neg hlen]
        exact ih acc h
    · simp only [if_neg hmem]
      by_cases hlen : n ≤ (acc ++ [ln]).length
      · simp only [if_pos hlen]
        simp only [List.length_append, List.length_singleton]
        omega
      · simp only [if_neg hlen]
        exact ih _ (Nat.not_le.mp hlen)

/-- With enough observed time the settle loop cannot run out of
observations: it returns (settled or timed out) strictly inside the list. -/
theorem settleLoop_ne_ranOut :
    ∀ (obs : List (ℚ × List ℕ)) (c : ℕ) (prev : Option (List ℕ)),
      (∃ e ∈ obs, SETTLE_MAX_S ≤ e.1) → settleLoop obs c prev ≠ .ranOut := by
  intro obs
  induction obs with
  | nil => intro c prev h; simp at h
  | cons e rest ih =>
    intro c prev h
    obtain ⟨t, s⟩ := e
    simp only [settleLoop]
    by_cases ht : SETTLE_MAX_S ≤ t
    · simp only [if_pos ht]; intro hc; cases hc
    · simp only [if_neg ht]
      have hrest : ∃ e ∈ rest, SETTLE_MAX_S ≤ e.1 := by
        rcases h with ⟨e, he, hte⟩
        rcases List.mem_cons.mp he with rfl | hmem
        · exact absurd hte ht
        · exact ⟨e, hmem, hte⟩
      match prev with
      | none => exact ih c (some s) hrest
      | some p =>
        by_cases hdiff : changedRatio p s < SETTLE_CHANGE_RATIO_THRESHOLD
        · simp only [if_pos hdiff]
          by_cases hcnt : SETTLE_REQUIRED_STABLE ≤ c + 1
          · simp only [if_pos hcnt]; intro hc; cases hc
          · simp only [if_neg hcnt]
            exact ih (c + 1) (some s) hrest
        · simp only [if_neg hdiff]
          exact ih 0 (some s) hrest

-- ---------- C2 ----------

/-- C2 (counterexample): the claim says unparsable responses are recovered up
to 3 consecutive times and the run aborts only on the 4th consecutive
failure; in the code the 3rd consecutive parse failure is already fatal — a
4th iteration (here a successful one) never runs. -/
theorem C2_counterexample :
    parseLoop [false, false, false, true] 0 = .fatalParse := rfl

/-- C2 (amended): unparsable responses are recovered (iteration skipped) up
to 2 consecutive times; the 3rd consecutive parse failure aborts the run
fatally; a successfully parsed response resets the consecutive-failure count
to zero. -/
theorem C2_parse_failure_accounting :
    ∀ (rest : List Bool) (failed : ℕ),
      parseLoop (true :: rest) failed = parseLoop rest 0 ∧
      (failed + 1 < 3 → parseLoop (false :: rest) failed = parseLoop rest (failed + 1)) ∧
      (2 ≤ failed → parseLoop (false :: rest) failed = .fatalParse) ∧
      parseLoop (false :: false :: true :: rest) 0 = parseLoop rest 0 ∧
      parseLoop (false :: false :: false :: rest) 0 = .fatalParse := by
  intro rest failed
  refine ⟨rfl, ?_, ?_, rfl, rfl⟩
  · intro h
    simp only [parseLoop, if_neg (by omega : ¬ 3 ≤ failed + 1)]
    simp
  · intro h
    simp only [parseLoop, if_pos (by omega : 3 ≤ failed + 1)]
    simp

/-- C2 (witness): the amended accounting at concrete inputs. -/
theorem C2_parse_failure_accounting_witness :
    parseLoop [true] 5 = parseLoop [] 0 ∧
    parseLoop [false] 0 = parseLoop [] 1 ∧
    parseLoop [false] 2 = .fatalParse :=
  ⟨(C2_parse_failure_accounting [] 5).1,
   (C2_parse_failure_accounting [] 0).2.1 (by omega),
   (C2_parse_failure_accounting [] 2).2.2.1 (by omega)⟩

-- ---------- C3 ----------

/-- C3 (counterexample): with a previously pushed overlay frame, rendering
with an empty story leaves the previously pushed frame on screen — the
compositor push is skipped, so the on-screen surface is *not* fully
transparent. -/
theorem C3_counterexample :
    (render { story := "", buffer := .transparent,
              onScreen := .drawn "prior overlay", pulses := 0 }).onScreen
        = .drawn "prior overlay" ∧
    (render { story := "", buffer := .transparent,
              onScreen := .drawn "prior overlay", pulses := 0 }).onScreen
        ≠ .transparent := by
  exact ⟨rfl, by decide⟩

/-- C3 (amended): rendering with an empty story clears the backing buffer to
fully transparent and re-asserts top-most stacking, but skips the compositor
push, so the on-screen surface keeps whatever was pushed before. -/
theorem C3_empty_story_render :
    ∀ st : OvState, st.story = "" →
      (render st).buffer = .transparent ∧
      (render st).onScreen = st.onScreen ∧
      (render st).pulses = st.pulses + OVERLAY_REASSERT_PULSES := by
  intro st h
  simp [render, reassert_topmost, h]

/-- C3 (witness): the amended rendering facts at a concrete state. -/
theorem C3_empty_story_render_witness :
    (render { story := "", buffer := .drawn "stale", onScreen := .drawn "x", pulses := 3 }).buffer
        = .transparent ∧
    (render { story := "", buffer := .drawn "stale", onScreen := .drawn "x", pulses := 3 }).onScreen
        = BufContent.drawn "x" ∧
    (render { story := "", buffer := .drawn "stale", onScreen := .drawn "x", pulses := 3 }).pulses
        = 3 + OVERLAY_REASSERT_PULSES :=
  C3_empty_story_render { story := "", buffer := .drawn "stale", onScreen := .drawn "x", pulses := 3 } rfl

-- ---------- C10 ----------

/-- C10 (confirmed): a syntactically valid decision dictionary — tool
`"click"` with `x` bound to the non-numeric string `"abc"` — makes
`ActionCommand.from_dict` raise (float conversion failure, modelled as
`none`) instead of returning a command, so the run aborts before validation
is reached; the same dictionary with a numeric `x` parses fine. -/
theorem C10_from_dict_raises :
    from_dict [("tool", JVal.str "click"), ("x", JVal.str "abc"), ("y", JVal.num 500)] = none ∧
    pyFloatOfString "abc" = none ∧
    (from_dict [("tool", JVal.str "click"), ("x", JVal.num 500), ("y", JVal.num 500)]).isSome = true := by
  exact ⟨rfl, rfl, rfl⟩

-- ---------- C1 ----------

/-- C1 (counterexample): a parsed decision whose `tool` is not one of the
seven variants is *not* rejected by validation — `from_dict` coerces the tool
to `"done"`, which `validate` accepts. -/
theorem C1_counterexample :
    ∃ c, from_dict [("tool", JVal.str "foobar")] = some c ∧ validate c = true :=
  ⟨_, rfl, rfl⟩

/-- C1 (amended): for every parsed decision whose `tool` field is not one of
the seven variants, `from_dict` coerces the tool to `"done"`; the resulting
command *passes* validation, and no action is executed for it — the control
loop terminates at the `"done"` break before reaching the executor. -/
theorem C1_unknown_tool_no_action :
    ∀ (d : List (String × JVal)) (c : ActionCommand),
      from_dict d = some c →
      (∀ s, (pyGet d "tool").getD (.str "") = JVal.str s → s ∉ sevenTools) →
      c.tool = "done" ∧ validate c = true ∧ loopStep c = .terminateRun := by
  intro d c hparse htool
  have htool' : c.tool = "done" := by
    unfold from_dict at hparse
    split at hparse
    · cases hparse
      show coerceTool ((pyGet d "tool").getD (.str "")) = "done"
      unfold coerceTool
      split
      · next s heq => rw [if_neg (htool s heq)]
      · rfl
    · cases hparse
  have hval : validate c = true := by
    unfold validate
    rw [htool']
    rw [if_neg (by decide), if_neg (by decide), if_neg (by decide), if_neg (by decide),
        if_pos (by decide)]
  refine ⟨htool', hval, ?_⟩
  unfold loopStep
  rw [hval, htool']
  rw [if_neg (by decide), if_pos (by decide)]

/-- C1 (witness): the amended behaviour at a concrete unknown-tool decision. -/
theorem C1_unknown_tool_no_action_witness :
    ({ tool := "done" } : ActionCommand).tool = "done" ∧
    validate { tool := "done" } = true ∧
    loopStep { tool := "done" } = .terminateRun :=
  C1_unknown_tool_no_action [("tool", JVal.str "wiggle")] { tool := "done" } rfl
    (by intro s hs; injection hs with h; rw [← h]; decide)

-- ---------- C4 ----------

/-- C4 (counterexample): for a scroll of `dy = 200` the code emits
`max(1, abs(int(200)) // 100) = 2` wheel ticks, while the claim's formula
`max(1, |delta| / 120)` gives 1 — the divisor in the code is 100, not the
claimed 120 (`WHEEL_DELTA`). -/
theorem C4_counterexample :
    scroll 0 200 = [(.vertical, 120), (.vertical, 120)] ∧
    max 1 ((pyInt 200).natAbs / 120) = 1 := by
  constructor
  · have h200 : pyInt 200 = 200 := by norm_num [pyInt]
    simp only [scroll, scrollAxis, h200, WHEEL_DELTA]
    norm_num [List.replicate]
  · have h200 : pyInt 200 = 200 := by norm_num [pyInt]
    rw [h200]
    decide

/-- C4 (amended): each axis with a nonzero delta emits exactly
`max(1, abs(int(delta)) // 100)` wheel ticks (integer division by 100, not by
120), each tick carrying wheel data `WHEEL_DELTA = 120` signed by the
delta's direction; a zero delta emits nothing; vertical and horizontal are
handled separately. -/
theorem C4_scroll_ticks :
    ∀ dx dy : ℚ,
      ((scroll dx dy).filter (fun e => e.1 = WheelAxis.vertical)).length
        = (if dy ≠ 0 then max 1 ((pyInt dy).natAbs / 100) else 0) ∧
      ((scroll dx dy).filter (fun e => e.1 = WheelAxis.horizontal)).length
        = (if dx ≠ 0 then max 1 ((pyInt dx).natAbs / 100) else 0) ∧
      (∀ e ∈ scroll dx dy, e.1 = WheelAxis.vertical →
        e.2 = WHEEL_DELTA * (if 0 < dy then 1 else -1)) ∧
      (∀ e ∈ scroll dx dy, e.1 = WheelAxis.horizontal →
        e.2 = WHEEL_DELTA * (if 0 < dx then 1 else -1)) := by
  intro dx dy
  have hfilter :
      ∀ (d : ℚ) (ax ax' : WheelAxis),
        ((scrollAxis d ax).filter (fun e => e.1 = ax')).length
          = if d ≠ 0 ∧ ax = ax' then max 1 ((pyInt d).natAbs / 100) else 0 := by
    intro d ax ax'
    unfold scrollAxis
    by_cases hd : d ≠ 0
    · simp only [if_pos hd]
      by_cases hax : ax = ax'
      · subst hax
        simp [List.filter_replicate, hd]
      · simp [List.filter_replicate, hax, hd]
    · simp [hd]
  have hmem :
      ∀ (d : ℚ) (ax : WheelAxis) (e : WheelAxis × ℤ), e ∈ scrollAxis d ax →
        e = (ax, WHEEL_DELTA * (if 0 < d then 1 else -1)) := by
    intro d ax e he
    unfold scrollAxis at he
    by_cases hd : d ≠ 0
    · rw [if_pos hd] at he
      exact List.eq_of_mem_replicate he
    · rw [if_neg hd] at he
      cases he
  refine ⟨?_, ?_, ?_, ?_⟩
  · simp only [scroll, List.filter_append, List.length_append, hfilter]
    by_cases hdy : dy ≠ 0 <;> by_cases hdx : dx ≠ 0 <;>
      simp [hdy, hdx]
  · simp only [scroll, List.filter_append, List.length_append, hfilter]
    by_cases hdy : dy ≠ 0 <;> by_cases hdx : dx ≠ 0 <;>
      simp [hdy, hdx]
  · intro e he hax
    rcases List.mem_append.mp he with h | h
    · rw [hmem dy .vertical e h]
    · have := hmem dx .horizontal e h
      rw [this] at hax
      cases hax
  · intro e he hax
    rcases List.mem_append.mp he with h | h
    · have := hmem dy .vertical e h
      rw [this] at hax
      cases hax
    · rw [hmem dx .horizontal e h]

/-- C4 (witness): the amended tick accounting at a concrete scroll of
`dx = -30, dy = 250` (2 vertical ticks of +120, 1 horizontal tick of −120). -/
theorem C4_scroll_ticks_witness :
    ((scroll (-30 : ℚ) 250).filter (fun e => e.1 = WheelAxis.vertical)).length
      = (if (250 : ℚ) ≠ 0 then max 1 ((pyInt 250).natAbs / 100) else 0) ∧
    ((scroll (-30 : ℚ) 250).filter (fun e => e.1 = WheelAxis.horizontal)).length
      = (if (-30 : ℚ) ≠ 0 then max 1 ((pyInt (-30)).natAbs / 100) else 0) ∧
    (WheelAxis.vertical, (120 : ℤ)).2
      = WHEEL_DELTA * (if (0 : ℚ) < 250 then 1 else -1) :=
  ⟨(C4_scroll_ticks (-30) 250).1,
   (C4_scroll_ticks (-30) 250).2.1,
   (C4_scroll_ticks (-30) 250).2.2.1 (WheelAxis.vertical, (120 : ℤ))
     (by
        have h : pyInt 250 = 250 := by norm_num [pyInt]
        simp only [scroll, scrollAxis, h, WHEEL_DELTA]
        norm_num [List.replicate])
     rfl⟩

-- ---------- C5 ----------

/-- Truncation of an integer-valued rational is the integer itself. -/
theorem pyInt_intCast (n : ℤ) : pyInt ((n : ℚ)) = n := by
  unfold pyInt
  by_cases h : (0 : ℚ) ≤ (n : ℚ)
  · rw [if_pos h, Int.floor_intCast]
  · rw [if_neg h, show -((n : ℚ)) = ((-n : ℤ) : ℚ) by push_cast; ring, Int.floor_intCast]
    ring

/-- Scaling the full screen-pixel coordinate `n` by `65535 / (n − 1)` lands
at or above 65535 whenever the dimension is at least 2. -/
theorem le_pyInt_scale (n : ℤ) (hn : 2 ≤ n) :
    (65535 : ℤ) ≤ pyInt ((n : ℚ) * 65535 / ((n : ℚ) - 1)) := by
  have hnQ : (2 : ℚ) ≤ (n : ℚ) := by exact_mod_cast hn
  have hpos : (0 : ℚ) < (n : ℚ) - 1 := by linarith
  have hge : (65535 : ℚ) ≤ (n : ℚ) * 65535 / ((n : ℚ) - 1) := by
    rw [le_div_iff₀ hpos]
    nlinarith
  have h0 : (0 : ℚ) ≤ (n : ℚ) * 65535 / ((n : ℚ) - 1) := by linarith
  unfold pyInt
  rw [if_pos h0]
  exact Int.le_floor.mpr (by exact_mod_cast hge)

/-- C5 (confirmed): for all normalized coordinates in [0, 1000] and any
screen dimensions, `norm_to_screen` followed by `to_win32_normalized` stays
within [0, 65535] on both axes; (0, 0) maps to (0, 0); (1000, 1000) maps to
the maximal device-absolute value 65535 on each axis (dimensions ≥ 2); and a
screen dimension ≤ 1 maps that axis to 0. -/
theorem C5_coord_roundtrip :
    ∀ (c : CoordConverter) (xn yn : ℚ),
      0 ≤ xn → xn ≤ 1000 → 0 ≤ yn → yn ≤ 1000 →
      (0 ≤ (normToDevice c xn yn).1 ∧ (normToDevice c xn yn).1 ≤ 65535 ∧
       0 ≤ (normToDevice c xn yn).2 ∧ (normToDevice c xn yn).2 ≤ 65535) ∧
      normToDevice c 0 0 = (0, 0) ∧
      (2 ≤ c.sw → 2 ≤ c.sh → normToDevice c 1000 1000 = (65535, 65535)) ∧
      (∀ x y : ℤ, c.sw ≤ 1 → (c.to_win32_normalized x y).1 = 0) ∧
      (∀ x y : ℤ, c.sh ≤ 1 → (c.to_win32_normalized x y).2 = 0) := by
  intro c xn yn hx0 hx1 hy0 hy1
  have hz : pyInt 0 = 0 := by norm_num [pyInt]
  refine ⟨?_, ?_, ?_, ?_, ?_⟩
  · simp only [normToDevice, CoordConverter.to_win32_normalized]
    split_ifs <;> simp
  · simp only [normToDevice, CoordConverter.norm_to_screen, zero_mul, zero_div, hz,
               CoordConverter.to_win32_normalized, Int.cast_zero]
    split_ifs <;> norm_num [hz]
  · intro hsw hsh
    have h1w : pyInt ((1000 : ℚ) * (c.sw : ℚ) / 1000) = c.sw := by
      rw [show (1000 : ℚ) * (c.sw : ℚ) / 1000 = ((c.sw : ℚ)) by ring]
      exact pyInt_intCast c.sw
    have h1h : pyInt ((1000 : ℚ) * (c.sh : ℚ) / 1000) = c.sh := by
      rw [show (1000 : ℚ) * (c.sh : ℚ) / 1000 = ((c.sh : ℚ)) by ring]
      exact pyInt_intCast c.sh
    simp only [normToDevice, CoordConverter.norm_to_screen, h1w, h1h,
               CoordConverter.to_win32_normalized]
    rw [if_neg (by omega), if_pos (by omega : 1 < c.sw), if_pos (by omega : 1 < c.sh)]
    rw [min_eq_left (le_pyInt_scale c.sw hsw), min_eq_left (le_pyInt_scale c.sh hsh)]
    norm_num
  · intro x y hsw
    simp only [CoordConverter.to_win32_normalized]
    split_ifs <;> simp_all <;> omega
  · intro x y hsh
    simp only [CoordConverter.to_win32_normalized]
    split_ifs <;> simp_all <;> omega

/-- C5 (witness): the composed conversion at the program's 1536×864 screen,
plus degenerate 1-pixel axes. -/
theorem C5_coord_roundtrip_witness :
    (0 ≤ (normToDevice ⟨1536, 864, 1536, 864⟩ 500 500).1 ∧
     (normToDevice ⟨1536, 864, 1536, 864⟩ 500 500).1 ≤ 65535 ∧
     0 ≤ (normToDevice ⟨1536, 864, 1536, 864⟩ 500 500).2 ∧
     (normToDevice ⟨1536, 864, 1536, 864⟩ 500 500).2 ≤ 65535) ∧
    normToDevice ⟨1536, 864, 1536, 864⟩ 0 0 = (0, 0) ∧
    normToDevice ⟨1536, 864, 1536, 864⟩ 1000 1000 = (65535, 65535) ∧
    ((⟨1, 864, 1536, 864⟩ : CoordConverter).to_win32_normalized 7 9).1 = 0 ∧
    ((⟨1536, 1, 1536, 864⟩ : CoordConverter).to_win32_normalized 7 9).2 = 0 := by
  have h1 := C5_coord_roundtrip ⟨1536, 864, 1536, 864⟩ 500 500
    (by norm_num) (by norm_num) (by norm_num) (by norm_num)
  have h2 := C5_coord_roundtrip ⟨1, 864, 1536, 864⟩ 0 0
    le_rfl (by norm_num) le_rfl (by norm_num)
  have h3 := C5_coord_roundtrip ⟨1536, 1, 1536, 864⟩ 0 0
    le_rfl (by norm_num) le_rfl (by norm_num)
  exact ⟨h1.1, h1.2.1, h1.2.2.1 (by decide) (by decide),
         h2.2.2.2.1 7 9 (by decide), h3.2.2.2.2 7 9 (by decide)⟩

-- ---------- C6 ----------

/-- C6 (counterexample): `_merge_story` right-trims lines instead of fully
trimming them (leading whitespace survives, so the code differs from the
claim's reference scan), and with `maxLines = 0` one line is still appended
(the cap is checked only after an append), violating "never more than
maxLines lines". -/
theorem C6_counterexample :
    merge_story "" "  a" 16 = "  a" ∧
    refMerge "" "  a" 16 = "a" ∧
    merge_story "" "  a" 16 ≠ refMerge "" "  a" 16 ∧
    (mergedLines "" "a" 0).length = 1 := by
  exact ⟨rfl, rfl, by decide, rfl⟩

/-- C6 (amended): with lines right-trimmed (a line is kept when its fully
trimmed form is non-empty) rather than fully trimmed, and `maxLines ≥ 1`,
`_merge_story` equals the reference scan — new lines first, then old lines,
each appended only if not already present under exact case-sensitive match,
stopping once `maxLines` lines are appended — and the merged line list never
holds more than `maxLines` lines. -/
theorem C6_merge_story_refinement :
    ∀ (old_story new_story : String) (n : ℕ), 1 ≤ n →
      merge_story old_story new_story n = refMergeR old_story new_story n ∧
      (mergedLines old_story new_story n).length ≤ n := by
  intro old new n hn
  have h0 : ([] : List String).length < n := by simpa using hn
  constructor
  · by_cases hnew : new = ""
    · subst hnew
      by_cases hold : old = ""
      · subst hold
        simp only [merge_story, refMergeR, mergedLines, if_pos rfl]
        rw [if_neg (by simp)]
        rfl
      · simp [merge_story, refMergeR, hold]
    · simp only [merge_story, refMergeR, mergedLines]
      rw [if_neg (by simp [hnew]), if_neg hnew]
      exact congrArg joinLines (mergeLoop_eq_refScan n _ _ h0)
  · exact mergeLoop_length n _ _ h0

/-- C6 (witness): the amended refinement at concrete stories. -/
theorem C6_merge_story_refinement_witness :
    merge_story "old line" "new line" 16 = refMergeR "old line" "new line" 16 ∧
    (mergedLines "old line" "new line" 16).length ≤ 16 :=
  C6_merge_story_refinement "old line" "new line" 16 (by decide)

-- ---------- C7 ----------

/-- C7 (confirmed): when the normalized new story has at least 6 non-blank
lines, `run_agent` merges it against an empty old side, so every line of the
merged story is a (right-trimmed) line of the new story — the previous story
contributes nothing; with fewer than 6 non-blank lines (and a non-empty new
story), old and new are merged. -/
theorem C7_fresh_story_dominates :
    ∀ (story new_story : String),
      (6 ≤ lineCount new_story →
        updateStory story new_story = merge_story "" new_story 16 ∧
        ∀ l ∈ mergedLines "" new_story 16, l ∈ storyLinesR new_story) ∧
      (new_story ≠ "" → lineCount new_story < 6 →
        updateStory story new_story = merge_story story new_story 16) := by
  intro story new
  constructor
  · intro h6
    have hne : new ≠ "" := by
      intro he
      rw [he] at h6
      simp [lineCount, pySplitlines] at h6
    refine ⟨by simp [updateStory, hne, Nat.not_lt.mpr h6], ?_⟩
    intro l hl
    simp only [mergedLines] at hl
    rcases mergeLoop_mem 16 _ [] l hl with h | h
    · cases h
    · have hRnil : storyLinesR "" = [] := rfl
      rw [hRnil, List.append_nil] at h
      exact h
  · intro hne hlt
    simp [updateStory, hne, hlt]

/-- C7 (witness): a 6-line new story replaces the old story; a 1-line new
story is merged with it. -/
theorem C7_fresh_story_dominates_witness :
    updateStory "old" "a\nb\nc\nd\ne\nf" = merge_story "" "a\nb\nc\nd\ne\nf" 16 ∧
    "a" ∈ storyLinesR "a\nb\nc\nd\ne\nf" ∧
    updateStory "old" "x" = merge_story "old" "x" 16 := by
  have h := C7_fresh_story_dominates "old" "a\nb\nc\nd\ne\nf"
  have h2 := C7_fresh_story_dominates "old" "x"
  exact ⟨(h.1 (by decide)).1, (h.1 (by decide)).2 "a" (by decide),
         h2.2 (by decide) (by decide)⟩

-- ---------- C9 ----------

/-- C9 (confirmed): the settle wait always returns normally — it settles as
soon as the consecutive below-threshold streak reaches
`SETTLE_REQUIRED_STABLE` (checked right after the increment), a ratio at or
above the threshold resets the streak to zero, and once the wall-clock guard
sees `SETTLE_MAX_S` elapsed it returns (no exception path) even though the
streak was never reached; with unbounded observed time the loop can never
fall off the end of the observation sequence. -/
theorem C9_settle_behaviour :
    ∀ (obs rest : List (ℚ × List ℕ)) (t : ℚ) (s p : List ℕ)
      (stable_count : ℕ) (prev : Option (List ℕ)),
      ((∃ e ∈ obs, SETTLE_MAX_S ≤ e.1) → settleLoop obs stable_count prev ≠ .ranOut) ∧
      (SETTLE_MAX_S ≤ t → settleLoop ((t, s) :: rest) stable_count prev = .timedOut) ∧
      (t < SETTLE_MAX_S → changedRatio p s < SETTLE_CHANGE_RATIO_THRESHOLD →
        SETTLE_REQUIRED_STABLE ≤ stable_count + 1 →
        settleLoop ((t, s) :: rest) stable_count (some p) = .settled) ∧
      (t < SETTLE_MAX_S → changedRatio p s < SETTLE_CHANGE_RATIO_THRESHOLD →
        stable_count + 1 < SETTLE_REQUIRED_STABLE →
        settleLoop ((t, s) :: rest) stable_count (some p)
          = settleLoop rest (stable_count + 1) (some s)) ∧
      (t < SETTLE_MAX_S → SETTLE_CHANGE_RATIO_THRESHOLD ≤ changedRatio p s →
        settleLoop ((t, s) :: rest) stable_count (some p)
          = settleLoop rest 0 (some s)) ∧
      wait_for_screen_settle obs = settleLoop obs 0 none := by
  intro obs rest t s p stable_count prev
  refine ⟨settleLoop_ne_ranOut obs stable_count prev, ?_, ?_, ?_, ?_, rfl⟩
  · intro ht
    simp only [settleLoop, if_pos ht]
  · intro ht hdiff hcnt
    simp only [settleLoop, if_neg (not_le.mpr ht), if_pos hdiff, if_pos hcnt]
  · intro ht hdiff hcnt
    simp only [settleLoop, if_neg (not_le.mpr ht), if_pos hdiff,
               if_neg (Nat.not_le.mpr hcnt)]
  · intro ht hdiff
    simp only [settleLoop, if_neg (not_le.mpr ht), if_neg (not_lt.mpr hdiff)]

/-- C9 (witness): concrete settle runs — a timeout at 3 s elapsed, a settle
on the second identical sample, a streak increment, and a reset on a fully
changed sample. -/
theorem C9_settle_behaviour_witness :
    settleLoop [((3 : ℚ), [0])] 0 none ≠ .ranOut ∧
    settleLoop [((3 : ℚ), [0])] 0 none = .timedOut ∧
    settleLoop [((1 : ℚ), [5, 5])] 1 (some [5, 5]) = .settled ∧
    settleLoop [((1 : ℚ), [5, 5])] 0 (some [5, 5])
      = settleLoop [] 1 (some [5, 5]) ∧
    settleLoop [((1 : ℚ), [7, 7])] 4 (some [5, 5])
      = settleLoop [] 0 (some [7, 7]) ∧
    wait_for_screen_settle [((3 : ℚ), [0])] = settleLoop [((3 : ℚ), [0])] 0 none := by
  have hsame : changedRatio [5, 5] [5, 5] < SETTLE_CHANGE_RATIO_THRESHOLD := by
    have hz : ((List.zip [5, 5] [5, 5]).filter (fun ab => ab.1 ≠ ab.2)) = ([] : List (ℕ × ℕ)) := rfl
    rw [changedRatio, hz]
    norm_num [SETTLE_CHANGE_RATIO_THRESHOLD]
  have hdiffer : SETTLE_CHANGE_RATIO_THRESHOLD ≤ changedRatio [5, 5] [7, 7] := by
    have hz : ((List.zip [5, 5] [7, 7]).filter (fun ab => ab.1 ≠ ab.2))
        = [((5 : ℕ), (7 : ℕ)), (5, 7)] := rfl
    rw [changedRatio, hz]
    norm_num [SETTLE_CHANGE_RATIO_THRESHOLD]
  have h1 := C9_settle_behaviour [((3 : ℚ), [0])] [] 3 [0] [0] 0 none
  have h2 := C9_settle_behaviour [((3 : ℚ), [0])] [] 1 [5, 5] [5, 5] 1 none
  have h3 := C9_settle_behaviour [((3 : ℚ), [0])] [] 1 [5, 5] [5, 5] 0 none
  have h4 := C9_settle_behaviour [((3 : ℚ), [0])] [] 1 [7, 7] [5, 5] 4 none
  refine ⟨h1.1 ⟨(3, [0]), by simp, by norm_num [SETTLE_MAX_S]⟩,
          h1.2.1 (by norm_num [SETTLE_MAX_S]),
          h2.2.2.1 (by norm_num [SETTLE_MAX_S]) hsame (by norm_num [SETTLE_REQUIRED_STABLE]),
          h3.2.2.2.1 (by norm_num [SETTLE_MAX_S]) hsame (by norm_num [SETTLE_REQUIRED_STABLE]),
          h4.2.2.2.2.1 (by norm_num [SETTLE_MAX_S]) hdiffer,
          h1.2.2.2.2.2⟩

-- ---------- C8 ----------

/-- Fuel irrelevance for the row-slicing loop: any fuel at least the list
length gives the same slicing (each step consumes at least one byte when the
row length is positive). -/
theorem pyChunksAux_fuel (rowLen : ℕ) (hr : 1 ≤ rowLen) :
    ∀ (f f' : ℕ) (l : List ℕ), l.length ≤ f → l.length ≤ f' →
      pyChunksAux rowLen f l = pyChunksAux rowLen f' l := by
  intro f
  induction f with
  | zero =>
    intro f' l hf hf'
    have hl : l = [] := List.eq_nil_of_length_eq_zero (Nat.le_zero.mp hf)
    subst hl
    cases f' <;> simp [pyChunksAux]
  | succ f ih =>
    intro f' l hf hf'
    by_cases hl : l = []
    · subst hl
      cases f' <;> simp [pyChunksAux]
    · have hlen : 1 ≤ l.length := by
        cases l with
        | nil => exact absurd rfl hl
        | cons a as => simp
      cases f' with
      | zero => omega
      | succ f' =>
        simp only [pyChunksAux, if_neg hl]
        congr 1
        apply ih
        · simp only [List.length_drop]; omega
        · simp only [List.length_drop]; omega

/-- Slicing a stream starting with one exact row peels that row off. -/
theorem pyChunks_append_exact (rowLen : ℕ) (hr : 1 ≤ rowLen) :
    ∀ (a b : List ℕ), a.length = rowLen →
      pyChunks rowLen (a ++ b) = a :: pyChunks rowLen b := by
  intro a b ha
  unfold pyChunks
  have hab : (a ++ b).length = rowLen + b.length := by simp [ha]
  have hne : a ++ b ≠ [] := by
    intro h
    have := congrArg List.length h
    rw [hab] at this
    simp at this
    omega
  obtain ⟨m, hm⟩ : ∃ m, (a ++ b).length = m + 1 := ⟨(a ++ b).length - 1, by omega⟩
  rw [hm]
  simp only [pyChunksAux, if_neg hne]
  have ht : (a ++ b).take rowLen = a := by rw [← ha]; exact List.take_left a b
  have hd2 : (a ++ b).drop rowLen = b := by rw [← ha]; exact List.drop_left a b
  rw [ht, hd2]
  congr 1
  apply pyChunksAux_fuel rowLen hr
  · omega
  · omega

/-- The BGRA→RGB loop distributes over splitting the buffer at a pixel
boundary. -/
theorem bgraToRgb_append :
    ∀ (n : ℕ) (a b : List ℕ), a.length = 4 * n →
      bgraToRgb (a ++ b) = bgraToRgb a ++ bgraToRgb b := by
  intro n
  induction n with
  | zero =>
    intro a b ha
    have : a = [] := List.eq_nil_of_length_eq_zero (by omega)
    subst this
    simp [bgraToRgb]
  | succ n ih =>
    intro a b ha
    rcases a with _ | ⟨x0, a⟩
    · simp only [List.length_nil] at ha; omega
    rcases a with _ | ⟨x1, a⟩
    · simp only [List.length_cons, List.length_nil] at ha; omega
    rcases a with _ | ⟨x2, a⟩
    · simp only [List.length_cons, List.length_nil] at ha; omega
    rcases a with _ | ⟨x3, a⟩
    · simp only [List.length_cons, List.length_nil] at ha; omega
    have hrest : a.length = 4 * n := by
      simp only [List.length_cons] at ha; omega
    simp only [List.cons_append, bgraToRgb]
    exact congrArg (fun t => x2 :: x1 :: x0 :: t) (ih a b hrest)

/-- Length of the produced RGB stream: 3 bytes per pixel. -/
theorem bgraToRgb_length :
    ∀ (n : ℕ) (a : List ℕ), a.length = 4 * n → (bgraToRgb a).length = 3 * n := by
  intro n
  induction n with
  | zero =>
    intro a ha
    have : a = [] := List.eq_nil_of_length_eq_zero (by omega)
    subst this
    simp [bgraToRgb]
  | succ n ih =>
    intro a ha
    rcases a with _ | ⟨x0, a⟩
    · simp only [List.length_nil] at ha; omega
    rcases a with _ | ⟨x1, a⟩
    · simp only [List.length_cons, List.length_nil] at ha; omega
    rcases a with _ | ⟨x2, a⟩
    · simp only [List.length_cons, List.length_nil] at ha; omega
    rcases a with _ | ⟨x3, a⟩
    · simp only [List.length_cons, List.length_nil] at ha; omega
    have hrest : a.length = 4 * n := by
      simp only [List.length_cons] at ha; omega
    simp only [bgraToRgb, List.length_cons]
    rw [ih a hrest]
    omega

/-- Reading 4 positions past a 4-byte pixel lands in the remaining buffer. -/
theorem getD_shift4 (l : List ℕ) (y0 y1 y2 y3 i : ℕ) :
    ((y0 :: y1 :: y2 :: y3 :: l).getD (i + 4) 0) = l.getD i 0 := rfl

/-- One scanline: the BGRA→RGB loop on a single row equals the index-based
per-pixel RGB reads. -/
theorem bgraToRgb_row :
    ∀ (w : ℕ) (a : List ℕ), a.length = 4 * w →
      bgraToRgb a = (List.range w).flatMap
        (fun x => [a.getD (4 * x + 2) 0, a.getD (4 * x + 1) 0, a.getD (4 * x) 0]) := by
  intro w
  induction w with
  | zero =>
    intro a ha
    have : a = [] := List.eq_nil_of_length_eq_zero (by omega)
    subst this
    simp [bgraToRgb]
  | succ w ih =>
    intro a ha
    rcases a with _ | ⟨x0, a⟩
    · simp only [List.length_nil] at ha; omega
    rcases a with _ | ⟨x1, a⟩
    · simp only [List.length_cons, List.length_nil] at ha; omega
    rcases a with _ | ⟨x2, a⟩
    · simp only [List.length_cons, List.length_nil] at ha; omega
    rcases a with _ | ⟨x3, a⟩
    · simp only [List.length_cons, List.length_nil] at ha; omega
    have hrest : a.length = 4 * w := by
      simp only [List.length_cons] at ha; omega
    have htail : bgraToRgb a = (List.range w).flatMap
        (fun x => [(x0 :: x1 :: x2 :: x3 :: a).getD (4 * (x + 1) + 2) 0,
                   (x0 :: x1 :: x2 :: x3 :: a).getD (4 * (x + 1) + 1) 0,
                   (x0 :: x1 :: x2 :: x3 :: a).getD (4 * (x + 1)) 0]) := by
      rw [ih a hrest]
      refine List.flatMap_congr fun x _ => ?_
      have e2 : 4 * (x + 1) + 2 = 4 * x + 2 + 4 := by ring
      have e1 : 4 * (x + 1) + 1 = 4 * x + 1 + 4 := by ring
      have e0 : 4 * (x + 1) = 4 * x + 4 := by ring
      rw [e2, e1, e0, getD_shift4, getD_shift4, getD_shift4]
    simp only [bgraToRgb]
    simp only [List.range_succ_eq_map, List.flatMap_cons, List.flatMap_map,
               Nat.succ_eq_add_one, Nat.mul_zero, Nat.zero_add]
    rw [show ((x0 :: x1 :: x2 :: x3 :: a).getD 2 0) = x2 from rfl,
        show ((x0 :: x1 :: x2 :: x3 :: a).getD 1 0) = x1 from rfl,
        show ((x0 :: x1 :: x2 :: x3 :: a).getD 0 0) = x0 from rfl]
    simp only [List.cons_append, List.nil_append]
    exact congrArg (fun t => x2 :: x1 :: x0 :: t) htail

/-- Dropping one full BGRA row shifts the per-pixel reads by one row. -/
theorem pixelRGB_shift (data : List ℕ) (w x y : ℕ) :
    pixelRGB (data.drop (4 * w)) w x y = pixelRGB data w x (y + 1) := by
  unfold pixelRGB
  have k : ∀ i : ℕ, (data.drop (4 * w)).getD i 0 = data.getD (4 * w + i) 0 := by
    intro i
    rw [List.getD_eq_getElem?_getD, List.getD_eq_getElem?_getD, List.getElem?_drop]
  rw [k, k, k]
  have e2 : 4 * w + ((y * w + x) * 4 + 2) = ((y + 1) * w + x) * 4 + 2 := by ring
  have e1 : 4 * w + ((y * w + x) * 4 + 1) = ((y + 1) * w + x) * 4 + 1 := by ring
  have e0 : 4 * w + ((y * w + x) * 4) = ((y + 1) * w + x) * 4 := by ring
  rw [e2, e1, e0]

/-- The slicing of the converted RGB stream equals the index-based
description of the image's scanlines. -/
theorem scanlines_eq (w : ℕ) (hw : 0 < w) :
    ∀ (h : ℕ) (data : List ℕ), data.length = w * h * 4 →
      pyChunks (w * 3) (bgraToRgb data)
        = (List.range h).map
            (fun y => (List.range w).flatMap (fun x => pixelRGB data w x y)) := by
  intro h
  induction h with
  | zero =>
    intro data hd
    have : data = [] := List.eq_nil_of_length_eq_zero (by simpa using hd)
    subst this
    rfl
  | succ h ih =>
    intro data hd
    have hsplitlen : data.length = 4 * w + w * h * 4 := by rw [hd]; ring
    have ha : (data.take (4 * w)).length = 4 * w := by
      rw [List.length_take]; omega
    have hb : (data.drop (4 * w)).length = w * h * 4 := by
      rw [List.length_drop]; omega
    have hsplit : bgraToRgb data
        = bgraToRgb (data.take (4 * w)) ++ bgraToRgb (data.drop (4 * w)) := by
      conv_lhs => rw [← List.take_append_drop (4 * w) data]
      exact bgraToRgb_append w _ _ ha
    rw [hsplit]
    have hra : (bgraToRgb (data.take (4 * w))).length = w * 3 := by
      have := bgraToRgb_length w _ ha
      omega
    rw [pyChunks_append_exact (w * 3) (by omega) _ _ hra]
    rw [ih _ hb]
    rw [List.range_succ_eq_map, List.map_cons, List.map_map]
    congr 1
    · show bgraToRgb (data.take (4 * w))
        = (List.range w).flatMap (fun x => pixelRGB data w x 0)
      rw [bgraToRgb_row w _ ha]
      refine List.flatMap_congr fun x hx => ?_
      have hxw : x < w := List.mem_range.mp hx
      have k : ∀ i : ℕ, i < 4 * w → (data.take (4 * w)).getD i 0 = data.getD i 0 := by
        intro i hi
        rw [List.getD_eq_getElem?_getD, List.getD_eq_getElem?_getD, List.getElem?_take,
            if_pos hi]
      unfold pixelRGB
      rw [k _ (by omega), k _ (by omega), k _ (by omega)]
      have e2 : (0 * w + x) * 4 + 2 = 4 * x + 2 := by ring
      have e1 : (0 * w + x) * 4 + 1 = 4 * x + 1 := by ring
      have e0 : (0 * w + x) * 4 = 4 * x := by ring
      rw [e2, e1, e0]
    · have hfn : (fun y => (List.range w).flatMap
            (fun x => pixelRGB (data.drop (4 * w)) w x y))
          = ((fun y => (List.range w).flatMap (fun x => pixelRGB data w x y))
              ∘ Nat.succ) := by
        funext y
        exact List.flatMap_congr fun x _ => pixelRGB_shift data w x y
      rw [hfn]

/-- C8 (confirmed): for every frame (`w*h*4` BGRA bytes, positive width) the
encoder's output is exactly the fixed 8-byte PNG signature followed by three
chunks — a header chunk carrying big-endian width and height, bit depth 8,
color type 2 (truecolor without alpha), compression 0, filter 0, interlace 0;
one data chunk holding the compressed concatenation of the scanlines, each
prefixed with a 0x00 no-filter byte; and an empty trailer chunk — each chunk
framed as a 4-byte big-endian payload length, the 4-byte type, the payload,
and a CRC32 computed over the type followed by the payload (`zlib.compress`
and `zlib.crc32` are external C calls, abstracted as parameters). -/
theorem C8_png_container :
    ∀ (compress : List ℕ → List ℕ) (crc32 : List ℕ → ℕ) (data : List ℕ) (w h : ℕ),
      0 < w → data.length = w * h * 4 →
      encode_png_rgb compress crc32 data w h =
        pngSignature ++
        specChunk crc32 IHDRtype (be32 w ++ be32 h ++ [8, 2, 0, 0, 0]) ++
        specChunk crc32 IDATtype (compress (specScanlines data w h)) ++
        specChunk crc32 IENDtype [] := by
  intro compress crc32 data w h hw hlen
  have hscan : filteredData (bgraToRgb data) (w * 3) = specScanlines data w h := by
    unfold filteredData specScanlines
    rw [scanlines_eq w hw h data hlen, List.map_map]
    rfl
  simp only [encode_png_rgb, specChunk, hscan]
  simp only [List.append_nil, List.length_nil]

/-- C8 (witness): the container layout at a concrete 1×1 frame with the
identity standing in for the compressor and the length function for the
CRC. -/
theorem C8_png_container_witness :
    encode_png_rgb (fun l => l) (fun l => l.length) [9, 8, 7, 6] 1 1 =
      pngSignature ++
      specChunk (fun l => l.length) IHDRtype (be32 1 ++ be32 1 ++ [8, 2, 0, 0, 0]) ++
      specChunk (fun l => l.length) IDATtype
        ((fun l => l) (specScanlines [9, 8, 7, 6] 1 1)) ++
      specChunk (fun l => l.length) IENDtype [] :=
  C8_png_container (fun l => l) (fun l => l.length) [9, 8, 7, 6] 1 1
    (by decide) (by decide)
